import Mathlib

/-!
Shallow embedding of the LFFD `DetectionHead` geometry and target-assignment
code (`src/models/lffd/detection.py`): `gen_rf_anchors` and `build_targets`.
Coordinates are modelled as rationals (the source uses float32 tensors); the
tensor grids are modelled as per-cell functions, with a `List (List Box)`
form for shape statements.  The `LFFDMatcher` class is imported by the source
from `utils/matcher.py`, which is not part of the sources here; it is modelled
from the specification (§4.2) below.
-/

namespace LFFD

/-- An axis-aligned box `(xmin, ymin, xmax, ymax)` in pixel coordinates,
matching the last-dimension-4 layout of the anchor and ground-truth tensors. -/
structure Box where
  xmin : ℚ
  ymin : ℚ
  xmax : ℚ
  ymax : ℚ
deriving DecidableEq, Repr

/-- A 4-vector of regression values, matching the last dimension of `t_regs`. -/
structure Vec4 where
  x0 : ℚ
  x1 : ℚ
  x2 : ℚ
  x3 : ℚ
deriving DecidableEq, Repr

/-- torch.clamp(v, lo, hi) = min (max v lo) hi. -/
def clampQ (v lo hi : ℚ) : ℚ := min (max v lo) hi

/-- One cell of `DetectionHead.gen_rf_anchors` (detection.py lines 69-88):
the cell `(row, col)` has unclipped center `((col+0.5)*rf_stride,
(row+0.5)*rf_stride)`, expanded by `rf_size/2` on each side; when `clip` is
true the x-coordinates are clamped to `[0, fmapw*rf_stride]` and the
y-coordinates to `[0, fmaph*rf_stride]`. -/
def anchorCell (rf_size rf_stride : ℚ) (fmaph fmapw : ℕ) (clip : Bool)
    (row col : ℕ) : Box :=
  let cx : ℚ := ((col : ℚ) + 1/2) * rf_stride
  let cy : ℚ := ((row : ℚ) + 1/2) * rf_stride
  let b : Box := ⟨cx - rf_size/2, cy - rf_size/2, cx + rf_size/2, cy + rf_size/2⟩
  if clip then
    ⟨clampQ b.xmin 0 ((fmapw : ℚ) * rf_stride),
     clampQ b.ymin 0 ((fmaph : ℚ) * rf_stride),
     clampQ b.xmax 0 ((fmapw : ℚ) * rf_stride),
     clampQ b.ymax 0 ((fmaph : ℚ) * rf_stride)⟩
  else b

/-- The full anchor grid returned by `gen_rf_anchors`: an `fmaph × fmapw`
grid of boxes (the tensor `fmaph x fmapw x 4`). -/
def gen_rf_anchors (rf_size rf_stride : ℚ) (fmaph fmapw : ℕ) (clip : Bool) :
    List (List Box) :=
  (List.range fmaph).map (fun row =>
    (List.range fmapw).map (fun col =>
      anchorCell rf_size rf_stride fmaph fmapw clip row col))

/-- The center grid `build_targets` computes (detection.py lines 118-121):
it generates the anchors with `clip=True` and then takes per-cell midpoints
`((xmin+xmax)/2, (ymin+ymax)/2)` of the clipped boxes. -/
def rfCenter (rf_size rf_stride : ℚ) (fh fw : ℕ) (row col : ℕ) : ℚ × ℚ :=
  let b := anchorCell rf_size rf_stride fh fw true row col
  ((b.xmin + b.xmax) / 2, (b.ymin + b.ymax) / 2)

/-- `rf_centers.view(-1,2).repeat(1,2)` at one cell: the center duplicated
over the two x/y pairs. -/
def centerRepeated (rf_size rf_stride : ℚ) (fh fw : ℕ) (row col : ℕ) : Vec4 :=
  let c := rfCenter rf_size rf_stride fh fw row col
  ⟨c.1, c.2, c.1, c.2⟩

/-- The box coordinates as a `Vec4`, as stored into `t_regs`. -/
def boxVec (b : Box) : Vec4 := ⟨b.xmin, b.ymin, b.xmax, b.ymax⟩

/-- Line 135 of detection.py at one cell:
`(t_regs[i] - rf_centers.repeat(1,2)) / (rf_size * .5)` componentwise. -/
def normalizeRegs (pre ctr : Vec4) (rf_size : ℚ) : Vec4 :=
  ⟨(pre.x0 - ctr.x0) / (rf_size * (1/2)),
   (pre.x1 - ctr.x1) / (rf_size * (1/2)),
   (pre.x2 - ctr.x2) / (rf_size * (1/2)),
   (pre.x3 - ctr.x3) / (rf_size * (1/2))⟩

/-- Box width `xmax - xmin`. -/
def boxW (b : Box) : ℚ := b.xmax - b.xmin

/-- Box height `ymax - ymin`. -/
def boxH (b : Box) : ℚ := b.ymax - b.ymin

/-- Ground-truth box scale: `max(width, height)`. -/
def boxSize (b : Box) : ℚ := max (boxW b) (boxH b)

/-- Box area, used for the smaller-box-wins tie-break. -/
def boxArea (b : Box) : ℚ := boxW b * boxH b

/-- Modelled from the spec: a cell center lies within the geometric body of a
ground-truth box (its own image-space coordinates). -/
def coversCenter (b : Box) (c : ℚ × ℚ) : Bool :=
  decide (b.xmin ≤ c.1 ∧ c.1 ≤ b.xmax ∧ b.ymin ≤ c.2 ∧ c.2 ≤ b.ymax)

/-- Modelled from the spec: a box is eligible for a head iff its size
`max(width,height)` lies in the closed interval `[lower_scale, upper_scale]`. -/
def eligibleBox (lower upper : ℚ) (b : Box) : Bool :=
  decide (lower ≤ boxSize b ∧ boxSize b ≤ upper)

/-- Smallest-area-first selection with first-seen-wins on equal areas: the
fold keeps the current best unless a strictly smaller area appears. -/
def pickBest : List (ℕ × Box) → Option (ℕ × Box)
  | [] => none
  | p :: ps =>
      some (ps.foldl (fun best q => if boxArea q.2 < boxArea best.2 then q else best) p)

/-- Modelled from the spec: one cell of `LFFDMatcher` (`utils/matcher.py` is
not among the sources).  Returns the `(cls_assignment, reg_assignment)` pair
for a cell whose anchor center is `c`: the index of the smallest-area eligible
covering box (first-seen wins ties) when one exists; `(-2, -1)` when the cell
is covered only by out-of-scale boxes (ignore zone); `(-1, -1)` otherwise. -/
def lffdMatchCell (lower upper : ℚ) (gt : List Box) (c : ℚ × ℚ) : ℤ × ℤ :=
  let cand := gt.enum.filter (fun p => coversCenter p.2 c && eligibleBox lower upper p.2)
  match pickBest cand with
  | some p => ((p.1 : ℤ), (p.1 : ℤ))
  | none => if gt.any (fun b => coversCenter b c) then (-2, -1) else (-1, -1)

/-- The interface of the matcher object used by `build_targets`: from the
anchor-center grid and one image's ground-truth boxes, a pair of per-cell
integer assignment grids `(cls_mask, reg_mask)`. -/
def MatcherFun : Type :=
  (ℕ → ℕ → ℚ × ℚ) → List Box → (ℕ → ℕ → ℤ) × (ℕ → ℕ → ℤ)

/-- Modelled from the spec: the full `LFFDMatcher` call on a center grid. -/
def lffdMatcher (lower upper : ℚ) : MatcherFun :=
  fun centers gt =>
    ((fun r c => (lffdMatchCell lower upper gt (centers r c)).1),
     (fun r c => (lffdMatchCell lower upper gt (centers r c)).2))

/-- The five dense target tensors of `build_targets`, as per-cell functions
indexed by (image, row, col). -/
structure Targets where
  t_cls : ℕ → ℕ → ℕ → ℤ
  t_regs : ℕ → ℕ → ℕ → Vec4
  t_objness_mask : ℕ → ℕ → ℕ → Bool
  t_reg_mask : ℕ → ℕ → ℕ → Bool
  ignore : ℕ → ℕ → ℕ → Bool

/-- `DetectionHead.build_targets` (detection.py lines 90-137), parameterized
by the matcher object (`self.matcher` in the source).  All five tensors start
at their zero/false defaults; an image with an empty ground-truth list is
skipped by the loop (`continue`) and keeps the defaults.  For a non-empty
image: `t_cls` is 1 and `t_objness_mask` true where `cls_mask >= 0`,
`t_reg_mask` true where `reg_mask >= 0`, `ignore` true where `cls_mask == -2`,
the matched box coordinates are copied into `t_regs` where `reg_mask >= 0`,
and line 135 then normalizes the whole image slice of `t_regs` (matched cells
and untouched zero cells alike) by `(v - center_repeated) / (rf_size * .5)`
with the clipped-anchor centers. -/
def build_targets (matcher : MatcherFun) (rf_size rf_stride : ℚ) (fh fw : ℕ)
    (gt_boxes : List (List Box)) : Targets :=
  let centers := fun r c => rfCenter rf_size rf_stride fh fw r c
  { t_cls := fun i r c =>
      let gt := gt_boxes.getD i []
      if gt.isEmpty then 0
      else if 0 ≤ (matcher centers gt).1 r c then 1 else 0,
    t_regs := fun i r c =>
      let gt := gt_boxes.getD i []
      if gt.isEmpty then ⟨0, 0, 0, 0⟩
      else
        let reg := (matcher centers gt).2 r c
        let pre : Vec4 :=
          if 0 ≤ reg then boxVec (gt.getD reg.toNat ⟨0, 0, 0, 0⟩) else ⟨0, 0, 0, 0⟩
        normalizeRegs pre (centerRepeated rf_size rf_stride fh fw r c) rf_size,
    t_objness_mask := fun i r c =>
      let gt := gt_boxes.getD i []
      if gt.isEmpty then false
      else decide (0 ≤ (matcher centers gt).1 r c),
    t_reg_mask := fun i r c =>
      let gt := gt_boxes.getD i []
      if gt.isEmpty then false
      else decide (0 ≤ (matcher centers gt).2 r c),
    ignore := fun i r c =>
      let gt := gt_boxes.getD i []
      if gt.isEmpty then false
      else decide ((matcher centers gt).1 r c = -2) }

end LFFD

namespace LFFD

/-! Helper lemmas about the anchor grid. -/

theorem getD_map_range {α : Type} (n : ℕ) (f : ℕ → α) (i : ℕ) (d : α) (h : i < n) :
    ((List.range n).map f).getD i d = f i := by
  rw [List.getD_eq_getElem?_getD]
  simp [List.getElem?_map, List.getElem?_range, h]

theorem mem_gen_rf_anchors {rf_size rf_stride : ℚ} {fmaph fmapw : ℕ} {clip : Bool}
    {row : List Box} {b : Box}
    (hrow : row ∈ gen_rf_anchors rf_size rf_stride fmaph fmapw clip) (hb : b ∈ row) :
    ∃ r c, r < fmaph ∧ c < fmapw ∧ b = anchorCell rf_size rf_stride fmaph fmapw clip r c := by
  simp only [gen_rf_anchors, List.mem_map, List.mem_range] at hrow
  obtain ⟨r, hr, rfl⟩ := hrow
  simp only [List.mem_map, List.mem_range] at hb
  obtain ⟨c, hc, rfl⟩ := hb
  exact ⟨r, c, hr, hc, rfl⟩

theorem anchorCell_unclipped (rf_size rf_stride : ℚ) (fmaph fmapw : ℕ) (r c : ℕ) :
    anchorCell rf_size rf_stride fmaph fmapw false r c =
      ⟨((c : ℚ) + 1/2) * rf_stride - rf_size/2,
       ((r : ℚ) + 1/2) * rf_stride - rf_size/2,
       ((c : ℚ) + 1/2) * rf_stride + rf_size/2,
       ((r : ℚ) + 1/2) * rf_stride + rf_size/2⟩ := by
  simp [anchorCell]

theorem anchorCell_clipped (rf_size rf_stride : ℚ) (fmaph fmapw : ℕ) (r c : ℕ) :
    anchorCell rf_size rf_stride fmaph fmapw true r c =
      ⟨clampQ (((c : ℚ) + 1/2) * rf_stride - rf_size/2) 0 ((fmapw : ℚ) * rf_stride),
       clampQ (((r : ℚ) + 1/2) * rf_stride - rf_size/2) 0 ((fmaph : ℚ) * rf_stride),
       clampQ (((c : ℚ) + 1/2) * rf_stride + rf_size/2) 0 ((fmapw : ℚ) * rf_stride),
       clampQ (((r : ℚ) + 1/2) * rf_stride + rf_size/2) 0 ((fmaph : ℚ) * rf_stride)⟩ := by
  simp [anchorCell]

/-- C3: with `clip=False` the anchor grid has shape `(fmaph, fmapw, 4)`, cell
`(row, col)` is `((col+0.5)*rf_stride - rf_size/2, (row+0.5)*rf_stride -
rf_size/2, (col+0.5)*rf_stride + rf_size/2, (row+0.5)*rf_stride + rf_size/2)`,
and cell `(0,0)` has center `(rf_stride/2, rf_stride/2)`. -/
theorem gen_rf_anchors_unclipped_cells (rf_size rf_stride : ℚ) (fmaph fmapw : ℕ)
    (hh : 1 ≤ fmaph) (hw : 1 ≤ fmapw) :
    (gen_rf_anchors rf_size rf_stride fmaph fmapw false).length = fmaph ∧
    (∀ row ∈ gen_rf_anchors rf_size rf_stride fmaph fmapw false, row.length = fmapw) ∧
    (∀ i, i < fmaph → ∀ j, j < fmapw →
      (((gen_rf_anchors rf_size rf_stride fmaph fmapw false).getD i []).getD j ⟨0,0,0,0⟩ =
        ⟨((j : ℚ) + 1/2) * rf_stride - rf_size/2,
         ((i : ℚ) + 1/2) * rf_stride - rf_size/2,
         ((j : ℚ) + 1/2) * rf_stride + rf_size/2,
         ((i : ℚ) + 1/2) * rf_stride + rf_size/2⟩)) ∧
    ((((gen_rf_anchors rf_size rf_stride fmaph fmapw false).getD 0 []).getD 0 ⟨0,0,0,0⟩).xmin +
      (((gen_rf_anchors rf_size rf_stride fmaph fmapw false).getD 0 []).getD 0 ⟨0,0,0,0⟩).xmax)
        / 2 = rf_stride / 2 ∧
    ((((gen_rf_anchors rf_size rf_stride fmaph fmapw false).getD 0 []).getD 0 ⟨0,0,0,0⟩).ymin +
      (((gen_rf_anchors rf_size rf_stride fmaph fmapw false).getD 0 []).getD 0 ⟨0,0,0,0⟩).ymax)
        / 2 = rf_stride / 2 := by
  have hcell : ∀ i, i < fmaph → ∀ j, j < fmapw →
      (((gen_rf_anchors rf_size rf_stride fmaph fmapw false).getD i []).getD j ⟨0,0,0,0⟩ =
        ⟨((j : ℚ) + 1/2) * rf_stride - rf_size/2,
         ((i : ℚ) + 1/2) * rf_stride - rf_size/2,
         ((j : ℚ) + 1/2) * rf_stride + rf_size/2,
         ((i : ℚ) + 1/2) * rf_stride + rf_size/2⟩) := by
    intro i hi j hj
    unfold gen_rf_anchors
    rw [getD_map_range _ _ _ _ hi, getD_map_range _ _ _ _ hj, anchorCell_unclipped]
  refine ⟨by simp [gen_rf_anchors], ?_, hcell, ?_, ?_⟩
  · intro row hrow
    simp only [gen_rf_anchors, List.mem_map, List.mem_range] at hrow
    obtain ⟨r, hr, rfl⟩ := hrow
    simp
  · rw [hcell 0 hh 0 hw]
    push_cast
    ring
  · rw [hcell 0 hh 0 hw]
    push_cast
    ring

/-- C3 witness: instantiation at `rf_size = 8`, `rf_stride = 4`, a 2×3 map. -/
theorem gen_rf_anchors_unclipped_cells_witness :
    (gen_rf_anchors 8 4 2 3 false).length = 2 ∧
    (∀ row ∈ gen_rf_anchors 8 4 2 3 false, row.length = 3) ∧
    (∀ i, i < 2 → ∀ j, j < 3 →
      (((gen_rf_anchors 8 4 2 3 false).getD i []).getD j ⟨0,0,0,0⟩ =
        ⟨((j : ℚ) + 1/2) * 4 - 8/2, ((i : ℚ) + 1/2) * 4 - 8/2,
         ((j : ℚ) + 1/2) * 4 + 8/2, ((i : ℚ) + 1/2) * 4 + 8/2⟩)) ∧
    ((((gen_rf_anchors 8 4 2 3 false).getD 0 []).getD 0 ⟨0,0,0,0⟩).xmin +
      (((gen_rf_anchors 8 4 2 3 false).getD 0 []).getD 0 ⟨0,0,0,0⟩).xmax) / 2 = 4 / 2 ∧
    ((((gen_rf_anchors 8 4 2 3 false).getD 0 []).getD 0 ⟨0,0,0,0⟩).ymin +
      (((gen_rf_anchors 8 4 2 3 false).getD 0 []).getD 0 ⟨0,0,0,0⟩).ymax) / 2 = 4 / 2 :=
  gen_rf_anchors_unclipped_cells 8 4 2 3 (by norm_num) (by norm_num)

end LFFD

namespace LFFD

theorem clampQ_bounds (v M : ℚ) (hM : 0 ≤ M) :
    0 ≤ clampQ v 0 M ∧ clampQ v 0 M ≤ M :=
  ⟨le_min (le_max_right v 0) hM, min_le_right _ _⟩

/-- C7: with `clip=True` every anchor's x-coordinates lie in
`[0, fmapw * rf_stride]` and every anchor's y-coordinates lie in
`[0, fmaph * rf_stride]`. -/
theorem gen_rf_anchors_clip_bounds (rf_size rf_stride : ℚ) (fmaph fmapw : ℕ)
    (hs : 0 ≤ rf_stride) :
    ∀ row ∈ gen_rf_anchors rf_size rf_stride fmaph fmapw true, ∀ b ∈ row,
      0 ≤ b.xmin ∧ b.xmin ≤ (fmapw : ℚ) * rf_stride ∧
      0 ≤ b.xmax ∧ b.xmax ≤ (fmapw : ℚ) * rf_stride ∧
      0 ≤ b.ymin ∧ b.ymin ≤ (fmaph : ℚ) * rf_stride ∧
      0 ≤ b.ymax ∧ b.ymax ≤ (fmaph : ℚ) * rf_stride := by
  intro row hrow b hb
  obtain ⟨r, c, hr, hc, rfl⟩ := mem_gen_rf_anchors hrow hb
  have hW : (0 : ℚ) ≤ (fmapw : ℚ) * rf_stride :=
    mul_nonneg (Nat.cast_nonneg fmapw) hs
  have hH : (0 : ℚ) ≤ (fmaph : ℚ) * rf_stride :=
    mul_nonneg (Nat.cast_nonneg fmaph) hs
  rw [anchorCell_clipped]
  exact ⟨(clampQ_bounds _ _ hW).1, (clampQ_bounds _ _ hW).2,
         (clampQ_bounds _ _ hW).1, (clampQ_bounds _ _ hW).2,
         (clampQ_bounds _ _ hH).1, (clampQ_bounds _ _ hH).2,
         (clampQ_bounds _ _ hH).1, (clampQ_bounds _ _ hH).2⟩

/-- C7 witness: instantiation at `rf_size = 16`, `rf_stride = 4`, a 3×3 map,
evaluated at the boundary cell `(0,0)` of the grid. -/
theorem gen_rf_anchors_clip_bounds_witness :
    0 ≤ (anchorCell 16 4 3 3 true 0 0).xmin ∧
    (anchorCell 16 4 3 3 true 0 0).xmin ≤ ((3 : ℕ) : ℚ) * 4 ∧
    0 ≤ (anchorCell 16 4 3 3 true 0 0).xmax ∧
    (anchorCell 16 4 3 3 true 0 0).xmax ≤ ((3 : ℕ) : ℚ) * 4 ∧
    0 ≤ (anchorCell 16 4 3 3 true 0 0).ymin ∧
    (anchorCell 16 4 3 3 true 0 0).ymin ≤ ((3 : ℕ) : ℚ) * 4 ∧
    0 ≤ (anchorCell 16 4 3 3 true 0 0).ymax ∧
    (anchorCell 16 4 3 3 true 0 0).ymax ≤ ((3 : ℕ) : ℚ) * 4 := by
  have h := gen_rf_anchors_clip_bounds 16 4 3 3 (by norm_num)
    ((List.range 3).map (fun col => anchorCell 16 4 3 3 true 0 col))
    (List.mem_map.mpr ⟨0, List.mem_range.mpr (by norm_num), rfl⟩)
    (anchorCell 16 4 3 3 true 0 0)
    (List.mem_map.mpr ⟨0, List.mem_range.mpr (by norm_num), rfl⟩)
  exact h

/-- C9: with `clip=False` every anchor has width and height exactly
`rf_size`; consequently, when `rf_size > rf_stride`, the top-left cell's
anchor extends to negative coordinates and the bottom-right cell's anchor
extends beyond the feature map extent `fmapw*rf_stride × fmaph*rf_stride`. -/
theorem gen_rf_anchors_unclipped_size_overflow (rf_size rf_stride : ℚ)
    (fmaph fmapw : ℕ) (hh : 1 ≤ fmaph) (hw : 1 ≤ fmapw)
    (hgt : rf_stride < rf_size) :
    (∀ row ∈ gen_rf_anchors rf_size rf_stride fmaph fmapw false, ∀ b ∈ row,
      b.xmax - b.xmin = rf_size ∧ b.ymax - b.ymin = rf_size) ∧
    (anchorCell rf_size rf_stride fmaph fmapw false 0 0).xmin < 0 ∧
    (anchorCell rf_size rf_stride fmaph fmapw false 0 0).ymin < 0 ∧
    (fmapw : ℚ) * rf_stride <
      (anchorCell rf_size rf_stride fmaph fmapw false (fmaph - 1) (fmapw - 1)).xmax ∧
    (fmaph : ℚ) * rf_stride <
      (anchorCell rf_size rf_stride fmaph fmapw false (fmaph - 1) (fmapw - 1)).ymax := by
  have hwq : ((fmapw - 1 : ℕ) : ℚ) = (fmapw : ℚ) - 1 := by
    push_cast [Nat.cast_sub hw]
    ring
  have hhq : ((fmaph - 1 : ℕ) : ℚ) = (fmaph : ℚ) - 1 := by
    push_cast [Nat.cast_sub hh]
    ring
  refine ⟨?_, ?_, ?_, ?_, ?_⟩
  · intro row hrow b hb
    obtain ⟨r, c, _, _, rfl⟩ := mem_gen_rf_anchors hrow hb
    rw [anchorCell_unclipped]
    constructor <;> ring
  · rw [anchorCell_unclipped]
    push_cast
    linarith
  · rw [anchorCell_unclipped]
    push_cast
    linarith
  · rw [anchorCell_unclipped]
    simp only [hwq]
    have key : (((fmapw : ℚ) - 1) + 1/2) * rf_stride + rf_size/2 -
        (fmapw : ℚ) * rf_stride = (rf_size - rf_stride) / 2 := by ring
    linarith
  · rw [anchorCell_unclipped]
    simp only [hhq]
    have key : (((fmaph : ℚ) - 1) + 1/2) * rf_stride + rf_size/2 -
        (fmaph : ℚ) * rf_stride = (rf_size - rf_stride) / 2 := by ring
    linarith

/-- C9 witness: instantiation at `rf_size = 5 > rf_stride = 4` on a 2×2 map. -/
theorem gen_rf_anchors_unclipped_size_overflow_witness :
    (anchorCell 5 4 2 2 false 0 0).xmin < 0 ∧
    ((2 : ℕ) : ℚ) * 4 < (anchorCell 5 4 2 2 false (2 - 1) (2 - 1)).xmax := by
  have h := gen_rf_anchors_unclipped_size_overflow 5 4 2 2 (by norm_num) (by norm_num)
    (by norm_num)
  exact ⟨h.2.1, h.2.2.2.1⟩

end LFFD

namespace LFFD

/-- C8 counterexample: at the malformed input `rf_size = -4` (with
`rf_stride = 4` on a 1×1 map) `gen_rf_anchors` does not fail: it returns a
grid whose single anchor is the degenerate box `(4, 4, 0, 0)` with
`xmax < xmin`. -/
theorem gen_rf_anchors_no_validation_counterexample :
    gen_rf_anchors (-4) 4 1 1 false = [[⟨4, 4, 0, 0⟩]] ∧
    (Box.mk 4 4 0 0).xmax < (Box.mk 4 4 0 0).xmin := by
  constructor
  · have h1 : List.range 1 = [0] := by decide
    simp only [gen_rf_anchors, h1, List.map_cons, List.map_nil, anchorCell_unclipped]
    norm_num
  · norm_num

/-- C8 amended: no fail-fast validation exists; for any `rf_size ≤ 0` the
anchor generator still returns a full `fmaph × fmapw` grid in which every
anchor is degenerate (`xmax ≤ xmin` and `ymax ≤ ymin`), and a feature map
dimension of 0 silently yields an empty grid. -/
theorem gen_rf_anchors_degenerate_on_malformed (rf_size rf_stride : ℚ)
    (fmaph fmapw : ℕ) (hr : rf_size ≤ 0) :
    (gen_rf_anchors rf_size rf_stride fmaph fmapw false).length = fmaph ∧
    (∀ row ∈ gen_rf_anchors rf_size rf_stride fmaph fmapw false, ∀ b ∈ row,
      b.xmax ≤ b.xmin ∧ b.ymax ≤ b.ymin) ∧
    gen_rf_anchors rf_size rf_stride 0 fmapw false = [] := by
  refine ⟨by simp [gen_rf_anchors], ?_, by simp [gen_rf_anchors]⟩
  intro row hrow b hb
  obtain ⟨r, c, _, _, rfl⟩ := mem_gen_rf_anchors hrow hb
  rw [anchorCell_unclipped]
  constructor <;> simp <;> linarith

/-- C8 amended witness: instantiation at `rf_size = -4`, `rf_stride = 4` on a
1×1 map. -/
theorem gen_rf_anchors_degenerate_on_malformed_witness :
    (gen_rf_anchors (-4) 4 1 1 false).length = 1 ∧
    (∀ row ∈ gen_rf_anchors (-4) 4 1 1 false, ∀ b ∈ row,
      b.xmax ≤ b.xmin ∧ b.ymax ≤ b.ymin) ∧
    gen_rf_anchors (-4) 4 0 1 false = [] :=
  gen_rf_anchors_degenerate_on_malformed (-4) 4 1 1 (by norm_num)

/-- C2 counterexample: `build_targets` computes the centers it hands to the
matcher from the `clip=True` anchors (lines 118-121), so at the boundary cell
`(0,0)` of a 3×3 map with `rf_size = 16`, `rf_stride = 4` the matcher sees
center `(5, 5)`, not the unclipped `((0+0.5)*4, (0+0.5)*4) = (2, 2)`. -/
theorem rfCenter_clipping_counterexample :
    rfCenter 16 4 3 3 0 0 = (5, 5) ∧
    rfCenter 16 4 3 3 0 0 ≠ (((0 : ℚ) + 1/2) * 4, ((0 : ℚ) + 1/2) * 4) := by
  constructor <;>
    · simp only [rfCenter, anchorCell, clampQ]
      norm_num

/-- C2 amended: the centers `build_targets` passes to the matcher are the
midpoints of the `clip=True` anchor boxes; they agree with the unclipped
centers `((col+0.5)*rf_stride, (row+0.5)*rf_stride)` exactly at cells whose
unclipped anchor already lies inside `[0, fmapw*rf_stride] ×
[0, fmaph*rf_stride]` (in particular at all interior cells), but are shifted
at boundary cells where clipping changes the box asymmetrically. -/
theorem rfCenter_eq_unclipped_of_inside (rf_size rf_stride : ℚ)
    (fh fw : ℕ) (row col : ℕ) (hr : 0 ≤ rf_size)
    (hx0 : 0 ≤ ((col : ℚ) + 1/2) * rf_stride - rf_size/2)
    (hx1 : ((col : ℚ) + 1/2) * rf_stride + rf_size/2 ≤ (fw : ℚ) * rf_stride)
    (hy0 : 0 ≤ ((row : ℚ) + 1/2) * rf_stride - rf_size/2)
    (hy1 : ((row : ℚ) + 1/2) * rf_stride + rf_size/2 ≤ (fh : ℚ) * rf_stride) :
    rfCenter rf_size rf_stride fh fw row col =
      (((col : ℚ) + 1/2) * rf_stride, ((row : ℚ) + 1/2) * rf_stride) := by
  have hxlo : ((col : ℚ) + 1/2) * rf_stride - rf_size/2 ≤
      ((col : ℚ) + 1/2) * rf_stride + rf_size/2 := by linarith
  have hylo : ((row : ℚ) + 1/2) * rf_stride - rf_size/2 ≤
      ((row : ℚ) + 1/2) * rf_stride + rf_size/2 := by linarith
  have ex0 : clampQ (((col : ℚ) + 1/2) * rf_stride - rf_size/2) 0
      ((fw : ℚ) * rf_stride) = ((col : ℚ) + 1/2) * rf_stride - rf_size/2 := by
    unfold clampQ
    rw [max_eq_left hx0, min_eq_left (le_trans hxlo hx1)]
  have ex1 : clampQ (((col : ℚ) + 1/2) * rf_stride + rf_size/2) 0
      ((fw : ℚ) * rf_stride) = ((col : ℚ) + 1/2) * rf_stride + rf_size/2 := by
    unfold clampQ
    rw [max_eq_left (le_trans hx0 hxlo), min_eq_left hx1]
  have ey0 : clampQ (((row : ℚ) + 1/2) * rf_stride - rf_size/2) 0
      ((fh : ℚ) * rf_stride) = ((row : ℚ) + 1/2) * rf_stride - rf_size/2 := by
    unfold clampQ
    rw [max_eq_left hy0, min_eq_left (le_trans hylo hy1)]
  have ey1 : clampQ (((row : ℚ) + 1/2) * rf_stride + rf_size/2) 0
      ((fh : ℚ) * rf_stride) = ((row : ℚ) + 1/2) * rf_stride + rf_size/2 := by
    unfold clampQ
    rw [max_eq_left (le_trans hy0 hylo), min_eq_left hy1]
  unfold rfCenter
  rw [anchorCell_clipped]
  simp only [ex0, ex1, ey0, ey1]
  rw [Prod.ext_iff]
  constructor <;> ring

/-- C2 amended witness: instantiation at `rf_size = rf_stride = 4` on a 2×2
map at cell `(0,0)`, where the unclipped anchor is `(0,0,4,4)`, inside the
`[0,8] × [0,8]` bounds. -/
theorem rfCenter_eq_unclipped_of_inside_witness :
    rfCenter 4 4 2 2 0 0 = ((((0 : ℕ) : ℚ) + 1/2) * 4, (((0 : ℕ) : ℚ) + 1/2) * 4) :=
  rfCenter_eq_unclipped_of_inside 4 4 2 2 0 0 (by norm_num) (by norm_num)
    (by push_cast ; norm_num) (by norm_num) (by push_cast ; norm_num)

end LFFD

namespace LFFD

/-! Helper lemmas about the modelled matcher. -/

theorem pick_foldl_mem : ∀ (ps : List (ℕ × Box)) (p : ℕ × Box),
    ps.foldl (fun best q => if boxArea q.2 < boxArea best.2 then q else best) p ∈ p :: ps
  | [], p => by simp
  | q :: qs, p => by
    simp only [List.foldl_cons]
    by_cases hlt : boxArea q.2 < boxArea p.2
    · rw [if_pos hlt]
      exact List.mem_cons_of_mem p (pick_foldl_mem qs q)
    · rw [if_neg hlt]
      rcases List.mem_cons.mp (pick_foldl_mem qs p) with h1 | h1
      · exact List.mem_cons.mpr (Or.inl h1)
      · exact List.mem_cons_of_mem p (List.mem_cons_of_mem q h1)

theorem pickBest_mem {l : List (ℕ × Box)} {p : ℕ × Box}
    (h : pickBest l = some p) : p ∈ l := by
  match l with
  | [] => simp [pickBest] at h
  | q :: qs =>
    simp only [pickBest, Option.some.injEq] at h
    have hm := pick_foldl_mem qs q
    rw [h] at hm
    exact hm

theorem lffdMatchCell_eq (lower upper : ℚ) (gt : List Box) (c : ℚ × ℚ) :
    lffdMatchCell lower upper gt c =
      match pickBest (gt.enum.filter
          (fun p => coversCenter p.2 c && eligibleBox lower upper p.2)) with
      | some p => ((p.1 : ℤ), (p.1 : ℤ))
      | none => if gt.any (fun b => coversCenter b c) then (-2, -1) else (-1, -1) := by
  simp only [lffdMatchCell]

/-- If a cell's cls (equivalently reg) assignment is nonnegative, it is the
index of a ground-truth box that covers the cell's center and is eligible,
and the cls and reg assignments agree. -/
theorem lffdMatchCell_nonneg_spec (lower upper : ℚ) (gt : List Box) (c : ℚ × ℚ)
    (h : 0 ≤ (lffdMatchCell lower upper gt c).1 ∨
         0 ≤ (lffdMatchCell lower upper gt c).2) :
    ∃ b, (lffdMatchCell lower upper gt c).1.toNat < gt.length ∧
      gt.getD (lffdMatchCell lower upper gt c).1.toNat ⟨0,0,0,0⟩ = b ∧
      b ∈ gt ∧ coversCenter b c = true ∧ eligibleBox lower upper b = true ∧
      (lffdMatchCell lower upper gt c).2 = (lffdMatchCell lower upper gt c).1 := by
  cases hp : pickBest (gt.enum.filter
      (fun p => coversCenter p.2 c && eligibleBox lower upper p.2)) with
  | none =>
    rw [lffdMatchCell_eq, hp] at h
    rcases h with h | h <;> by_cases ha : gt.any (fun b => coversCenter b c) = true <;>
      simp [ha] at h
  | some p =>
    have hmem := pickBest_mem hp
    rw [List.mem_filter] at hmem
    obtain ⟨henum, hpred⟩ := hmem
    rw [List.mem_enum_iff_getElem?] at henum
    have hlen : p.1 < gt.length := by
      by_contra hc
      rw [List.getElem?_eq_none (by omega)] at henum
      exact Option.noConfusion henum
    have hgetD : gt.getD p.1 ⟨0,0,0,0⟩ = p.2 := by
      rw [List.getD_eq_getElem?_getD, henum]
      rfl
    have hmem2 : p.2 ∈ gt := List.getElem?_mem henum
    simp only [Bool.and_eq_true] at hpred
    simp only [lffdMatchCell_eq, hp, Int.toNat_natCast]
    exact ⟨p.2, hlen, hgetD, hmem2, hpred.1, hpred.2, trivial⟩

/-- If every ground-truth box covering the cell's center is ineligible and at
least one box covers it, the cell is an ignore cell: assignment `(-2, -1)`. -/
theorem lffdMatchCell_ignore_spec (lower upper : ℚ) (gt : List Box) (c : ℚ × ℚ)
    (hall : ∀ b ∈ gt, coversCenter b c = true → eligibleBox lower upper b = false)
    (hcov : ∃ b ∈ gt, coversCenter b c = true) :
    lffdMatchCell lower upper gt c = (-2, -1) := by
  have hfil : gt.enum.filter
      (fun p => coversCenter p.2 c && eligibleBox lower upper p.2) = [] := by
    rw [List.filter_eq_nil_iff]
    intro p hpmem
    rw [List.mem_enum_iff_getElem?] at hpmem
    have hb : p.2 ∈ gt := List.getElem?_mem hpmem
    simp only [Bool.and_eq_true, not_and]
    intro hcov2
    rw [hall p.2 hb hcov2]
    simp
  have hany : gt.any (fun b => coversCenter b c) = true := by
    rw [List.any_eq_true]
    obtain ⟨b, hb, hc2⟩ := hcov
    exact ⟨b, hb, hc2⟩
  rw [lffdMatchCell_eq, hfil]
  simp only [pickBest]
  rw [if_pos hany]

end LFFD

namespace LFFD

/-! Per-field equations of `build_targets`. -/

theorem build_targets_cls_eq (matcher : MatcherFun) (rf_size rf_stride : ℚ)
    (fh fw : ℕ) (gt_boxes : List (List Box)) (i r c : ℕ) :
    (build_targets matcher rf_size rf_stride fh fw gt_boxes).t_cls i r c =
      (if (gt_boxes.getD i []).isEmpty then 0
       else if 0 ≤ (matcher (fun r c => rfCenter rf_size rf_stride fh fw r c)
            (gt_boxes.getD i [])).1 r c then 1 else 0) := rfl

theorem build_targets_regs_eq (matcher : MatcherFun) (rf_size rf_stride : ℚ)
    (fh fw : ℕ) (gt_boxes : List (List Box)) (i r c : ℕ) :
    (build_targets matcher rf_size rf_stride fh fw gt_boxes).t_regs i r c =
      (if (gt_boxes.getD i []).isEmpty then ⟨0, 0, 0, 0⟩
       else normalizeRegs
         (if 0 ≤ (matcher (fun r c => rfCenter rf_size rf_stride fh fw r c)
              (gt_boxes.getD i [])).2 r c
          then boxVec ((gt_boxes.getD i []).getD
            ((matcher (fun r c => rfCenter rf_size rf_stride fh fw r c)
              (gt_boxes.getD i [])).2 r c).toNat ⟨0, 0, 0, 0⟩)
          else ⟨0, 0, 0, 0⟩)
         (centerRepeated rf_size rf_stride fh fw r c) rf_size) := rfl

theorem build_targets_objness_eq (matcher : MatcherFun) (rf_size rf_stride : ℚ)
    (fh fw : ℕ) (gt_boxes : List (List Box)) (i r c : ℕ) :
    (build_targets matcher rf_size rf_stride fh fw gt_boxes).t_objness_mask i r c =
      (if (gt_boxes.getD i []).isEmpty then false
       else decide (0 ≤ (matcher (fun r c => rfCenter rf_size rf_stride fh fw r c)
            (gt_boxes.getD i [])).1 r c)) := rfl

theorem build_targets_reg_mask_eq (matcher : MatcherFun) (rf_size rf_stride : ℚ)
    (fh fw : ℕ) (gt_boxes : List (List Box)) (i r c : ℕ) :
    (build_targets matcher rf_size rf_stride fh fw gt_boxes).t_reg_mask i r c =
      (if (gt_boxes.getD i []).isEmpty then false
       else decide (0 ≤ (matcher (fun r c => rfCenter rf_size rf_stride fh fw r c)
            (gt_boxes.getD i [])).2 r c)) := rfl

theorem build_targets_ignore_eq (matcher : MatcherFun) (rf_size rf_stride : ℚ)
    (fh fw : ℕ) (gt_boxes : List (List Box)) (i r c : ℕ) :
    (build_targets matcher rf_size rf_stride fh fw gt_boxes).ignore i r c =
      (if (gt_boxes.getD i []).isEmpty then false
       else decide ((matcher (fun r c => rfCenter rf_size rf_stride fh fw r c)
            (gt_boxes.getD i [])).1 r c = -2)) := rfl

/-- C5: no cell is ever simultaneously marked ignore and positive: for every
matcher, every batch, image and cell, `ignore AND objectness_mask` is false
(`ignore` requires `cls_mask = -2` while `objectness_mask` requires
`cls_mask >= 0`). -/
theorem build_targets_ignore_objness_mutex (matcher : MatcherFun)
    (rf_size rf_stride : ℚ) (fh fw : ℕ) (gt_boxes : List (List Box))
    (i row col : ℕ) :
    ((build_targets matcher rf_size rf_stride fh fw gt_boxes).ignore i row col &&
     (build_targets matcher rf_size rf_stride fh fw gt_boxes).t_objness_mask
       i row col) = false := by
  rw [build_targets_ignore_eq, build_targets_objness_eq]
  by_cases hemp : (gt_boxes.getD i []).isEmpty = true
  · rw [if_pos hemp, Bool.false_and]
  · rw [if_neg hemp, if_neg hemp]
    rcases le_or_lt 0 ((matcher (fun r c => rfCenter rf_size rf_stride fh fw r c)
        (gt_boxes.getD i [])).1 row col) with hle | hlt
    · have hne : ¬((matcher (fun r c => rfCenter rf_size rf_stride fh fw r c)
          (gt_boxes.getD i [])).1 row col = -2) := by omega
      rw [decide_eq_false hne, Bool.false_and]
    · rw [decide_eq_false (not_le.mpr hlt), Bool.and_false]

/-- C6: an image whose ground-truth list is empty yields all-background
targets: `cls = 0`, `regs = 0`, and all three masks false at every cell. -/
theorem build_targets_empty_gt_background (matcher : MatcherFun)
    (rf_size rf_stride : ℚ) (fh fw : ℕ) (gt_boxes : List (List Box))
    (i row col : ℕ) (h : gt_boxes.getD i [] = []) :
    (build_targets matcher rf_size rf_stride fh fw gt_boxes).t_cls i row col = 0 ∧
    (build_targets matcher rf_size rf_stride fh fw gt_boxes).t_regs i row col =
      ⟨0, 0, 0, 0⟩ ∧
    (build_targets matcher rf_size rf_stride fh fw gt_boxes).t_objness_mask
      i row col = false ∧
    (build_targets matcher rf_size rf_stride fh fw gt_boxes).t_reg_mask
      i row col = false ∧
    (build_targets matcher rf_size rf_stride fh fw gt_boxes).ignore
      i row col = false := by
  have hemp : (gt_boxes.getD i []).isEmpty = true := by rw [h]; rfl
  rw [build_targets_cls_eq, build_targets_regs_eq, build_targets_objness_eq,
    build_targets_reg_mask_eq, build_targets_ignore_eq,
    if_pos hemp, if_pos hemp, if_pos hemp, if_pos hemp, if_pos hemp]
  exact ⟨rfl, rfl, rfl, rfl, rfl⟩

/-- C6 witness: a batch of one image with zero ground-truth boxes. -/
theorem build_targets_empty_gt_background_witness :
    (build_targets (lffdMatcher 10 20) 4 4 1 1 [[]]).t_cls 0 0 0 = 0 ∧
    (build_targets (lffdMatcher 10 20) 4 4 1 1 [[]]).t_regs 0 0 0 = ⟨0, 0, 0, 0⟩ ∧
    (build_targets (lffdMatcher 10 20) 4 4 1 1 [[]]).t_objness_mask 0 0 0 = false ∧
    (build_targets (lffdMatcher 10 20) 4 4 1 1 [[]]).t_reg_mask 0 0 0 = false ∧
    (build_targets (lffdMatcher 10 20) 4 4 1 1 [[]]).ignore 0 0 0 = false :=
  build_targets_empty_gt_background (lffdMatcher 10 20) 4 4 1 1 [[]] 0 0 0 rfl

end LFFD

namespace LFFD

theorem rfCenter_fst_pos (rf_size rf_stride : ℚ) (fh fw : ℕ) (row col : ℕ)
    (hr : 0 < rf_size) (hs : 0 < rf_stride) (hcol : col < fw) :
    0 < (rfCenter rf_size rf_stride fh fw row col).1 := by
  unfold rfCenter
  rw [anchorCell_clipped]
  have ha : 0 < ((col : ℚ) + 1/2) * rf_stride := by positivity
  have hfw : (0 : ℚ) < (fw : ℚ) := by
    have : 0 < fw := Nat.pos_of_ne_zero (by omega)
    exact_mod_cast this
  have hM : 0 < (fw : ℚ) * rf_stride := mul_pos hfw hs
  have h1 : 0 ≤ clampQ (((col : ℚ) + 1/2) * rf_stride - rf_size/2) 0
      ((fw : ℚ) * rf_stride) := (clampQ_bounds _ _ (le_of_lt hM)).1
  have h2 : 0 < clampQ (((col : ℚ) + 1/2) * rf_stride + rf_size/2) 0
      ((fw : ℚ) * rf_stride) := by
    unfold clampQ
    refine lt_min ?_ hM
    calc (0 : ℚ) < ((col : ℚ) + 1/2) * rf_stride + rf_size/2 := by positivity
    _ ≤ max (((col : ℚ) + 1/2) * rf_stride + rf_size/2) 0 := le_max_left _ _
  simp only []
  linarith

/-- C10: in any image with at least one ground-truth box, line 135 normalizes
every cell of that image's regression slice, so cells where `t_reg_mask` is
false (which held the initial zeros) end up holding
`(0 - anchor_center_repeated) / (rf_size * 0.5)` — a nonzero vector — while
an image with zero ground-truth boxes keeps its regression values exactly
zero. -/
theorem build_targets_regs_shift_unmatched (matcher : MatcherFun)
    (rf_size rf_stride : ℚ) (fh fw : ℕ) (gt_boxes : List (List Box))
    (i iEmpty row col : ℕ)
    (hne : gt_boxes.getD i [] ≠ [])
    (hmask : (build_targets matcher rf_size rf_stride fh fw gt_boxes).t_reg_mask
      i row col = false)
    (hemp2 : gt_boxes.getD iEmpty [] = [])
    (hr : 0 < rf_size) (hs : 0 < rf_stride) (hcol : col < fw) :
    (build_targets matcher rf_size rf_stride fh fw gt_boxes).t_regs i row col =
      normalizeRegs ⟨0, 0, 0, 0⟩ (centerRepeated rf_size rf_stride fh fw row col)
        rf_size ∧
    (build_targets matcher rf_size rf_stride fh fw gt_boxes).t_regs i row col ≠
      ⟨0, 0, 0, 0⟩ ∧
    (build_targets matcher rf_size rf_stride fh fw gt_boxes).t_regs iEmpty row col =
      ⟨0, 0, 0, 0⟩ := by
  have hempN : ¬((gt_boxes.getD i []).isEmpty = true) := by
    intro hh
    exact hne (List.isEmpty_iff.mp hh)
  have hempP : (gt_boxes.getD iEmpty []).isEmpty = true := by rw [hemp2]; rfl
  rw [build_targets_reg_mask_eq, if_neg hempN] at hmask
  have hreg : ¬(0 ≤ (matcher (fun r c => rfCenter rf_size rf_stride fh fw r c)
      (gt_boxes.getD i [])).2 row col) := of_decide_eq_false hmask
  have hval : (build_targets matcher rf_size rf_stride fh fw gt_boxes).t_regs
      i row col =
      normalizeRegs ⟨0, 0, 0, 0⟩ (centerRepeated rf_size rf_stride fh fw row col)
        rf_size := by
    rw [build_targets_regs_eq, if_neg hempN, if_neg hreg]
  refine ⟨hval, ?_, by rw [build_targets_regs_eq, if_pos hempP]⟩
  rw [hval]
  intro hcontra
  have hx0 : ((0 : ℚ) - (centerRepeated rf_size rf_stride fh fw row col).x0) /
      (rf_size * (1/2)) = 0 := congrArg Vec4.x0 hcontra
  have hcx : 0 < (centerRepeated rf_size rf_stride fh fw row col).x0 :=
    rfCenter_fst_pos rf_size rf_stride fh fw row col hr hs hcol
  have hypos : 0 < rf_size * (1/2) := by positivity
  have hneg : ((0 : ℚ) - (centerRepeated rf_size rf_stride fh fw row col).x0) /
      (rf_size * (1/2)) < 0 :=
    div_neg_of_neg_of_pos (by linarith) hypos
  rw [hx0] at hneg
  exact lt_irrefl 0 hneg

/-- C10 witness: a head with scale range `[10, 20]` and one gt box of size 5
(matched nowhere); the unmatched cell of the nonempty image holds the shifted
value `(-1, -1, -1, -1)` while a second, boxless image keeps zeros. -/
theorem build_targets_regs_shift_unmatched_witness :
    (build_targets (lffdMatcher 10 20) 4 4 1 1 [[⟨0, 0, 5, 5⟩]]).t_regs 0 0 0 =
      normalizeRegs ⟨0, 0, 0, 0⟩ (centerRepeated 4 4 1 1 0 0) 4 ∧
    (build_targets (lffdMatcher 10 20) 4 4 1 1 [[⟨0, 0, 5, 5⟩]]).t_regs 0 0 0 ≠
      ⟨0, 0, 0, 0⟩ ∧
    (build_targets (lffdMatcher 10 20) 4 4 1 1 [[⟨0, 0, 5, 5⟩]]).t_regs 1 0 0 =
      ⟨0, 0, 0, 0⟩ := by
  refine build_targets_regs_shift_unmatched (lffdMatcher 10 20) 4 4 1 1
    [[⟨0, 0, 5, 5⟩]] 0 1 0 0 (by simp) ?_ (by simp) (by norm_num) (by norm_num)
    (by norm_num)
  simp only [build_targets_reg_mask_eq, lffdMatcher, lffdMatchCell, pickBest,
    coversCenter, eligibleBox, boxSize, boxW, boxH, boxArea, rfCenter, anchorCell,
    clampQ, List.enum, List.enumFrom, List.filter, List.any, List.getD,
    List.isEmpty, List.foldl]
  norm_num

end LFFD

namespace LFFD

/-- C1: scale gating with the spec-modelled matcher.  If every ground-truth
box covering a cell's anchor center is out of this head's scale range (and at
least one covers it), the cell is marked ignore and not objectness; moreover
objectness can only ever be set by an in-range covering box. -/
theorem build_targets_scale_gating (lower upper rf_size rf_stride : ℚ)
    (fh fw : ℕ) (gt_boxes : List (List Box)) (i row col : ℕ) :
    ((∀ b ∈ gt_boxes.getD i [],
        coversCenter b (rfCenter rf_size rf_stride fh fw row col) = true →
        eligibleBox lower upper b = false) →
     (∃ b ∈ gt_boxes.getD i [],
        coversCenter b (rfCenter rf_size rf_stride fh fw row col) = true) →
     (build_targets (lffdMatcher lower upper) rf_size rf_stride fh fw
        gt_boxes).ignore i row col = true ∧
     (build_targets (lffdMatcher lower upper) rf_size rf_stride fh fw
        gt_boxes).t_objness_mask i row col = false) ∧
    ((build_targets (lffdMatcher lower upper) rf_size rf_stride fh fw
        gt_boxes).t_objness_mask i row col = true →
     ∃ b ∈ gt_boxes.getD i [],
       coversCenter b (rfCenter rf_size rf_stride fh fw row col) = true ∧
       eligibleBox lower upper b = true) := by
  have hM1 : (lffdMatcher lower upper
      (fun r c => rfCenter rf_size rf_stride fh fw r c) (gt_boxes.getD i [])).1
        row col =
      (lffdMatchCell lower upper (gt_boxes.getD i [])
        (rfCenter rf_size rf_stride fh fw row col)).1 := rfl
  constructor
  · intro hall hcov
    have hempN : ¬((gt_boxes.getD i []).isEmpty = true) := by
      intro hh
      obtain ⟨b0, hb0, _⟩ := hcov
      rw [List.isEmpty_iff.mp hh] at hb0
      exact List.not_mem_nil b0 hb0
    have hcell : lffdMatchCell lower upper (gt_boxes.getD i [])
        (rfCenter rf_size rf_stride fh fw row col) = (-2, -1) :=
      lffdMatchCell_ignore_spec lower upper (gt_boxes.getD i [])
        (rfCenter rf_size rf_stride fh fw row col) hall hcov
    constructor
    · rw [build_targets_ignore_eq, if_neg hempN, hM1, hcell]
      rfl
    · rw [build_targets_objness_eq, if_neg hempN, hM1, hcell]
      rfl
  · intro hobj
    rw [build_targets_objness_eq] at hobj
    by_cases hempB : (gt_boxes.getD i []).isEmpty = true
    · rw [if_pos hempB] at hobj
      exact absurd hobj (by simp)
    · rw [if_neg hempB, hM1] at hobj
      have hle : 0 ≤ (lffdMatchCell lower upper (gt_boxes.getD i [])
          (rfCenter rf_size rf_stride fh fw row col)).1 := of_decide_eq_true hobj
      obtain ⟨b, _, _, hmem, hcov2, helig, _⟩ :=
        lffdMatchCell_nonneg_spec lower upper (gt_boxes.getD i [])
          (rfCenter rf_size rf_stride fh fw row col) (Or.inl hle)
      exact ⟨b, hmem, hcov2, helig⟩

/-- C1 witness: a head with scale range `[10, 20]` on a 1×1 map with one
ground-truth box `(0,0,5,5)` of size 5 (below range) covering the cell's
center `(2,2)`: the cell is ignore, not objectness. -/
theorem build_targets_scale_gating_witness :
    (build_targets (lffdMatcher 10 20) 4 4 1 1 [[⟨0, 0, 5, 5⟩]]).ignore 0 0 0 =
      true ∧
    (build_targets (lffdMatcher 10 20) 4 4 1 1
      [[⟨0, 0, 5, 5⟩]]).t_objness_mask 0 0 0 = false := by
  have hgt : ([[(⟨0, 0, 5, 5⟩ : Box)]].getD 0 []) = [⟨0, 0, 5, 5⟩] := rfl
  refine (build_targets_scale_gating 10 20 4 4 1 1 [[⟨0, 0, 5, 5⟩]] 0 0 0).1 ?_ ?_
  · intro b hb hcov2
    rw [hgt, List.mem_singleton] at hb
    subst hb
    simp only [eligibleBox, boxSize, boxW, boxH]
    norm_num
  · refine ⟨⟨0, 0, 5, 5⟩, by rw [hgt]; exact List.mem_singleton.mpr rfl, ?_⟩
    simp only [coversCenter, rfCenter, anchorCell, clampQ]
    norm_num

end LFFD

namespace LFFD

/-- C4 counterexample: on a 3×3 map with `rf_size = 16`, `rf_stride = 4`,
scale range `[5, 20]` and one box `(0,0,10,10)`, cell `(0,0)` is matched
(`t_reg_mask` true), but reconstructing with the *unclipped* anchor center
`((0+0.5)*4, (0+0.5)*4) = (2,2)` gives `(-3,-3,7,7)`, not the ground-truth
box: the stored `regs` were normalized against the clipped center `(5,5)`. -/
theorem build_targets_unclipped_roundtrip_counterexample :
    (build_targets (lffdMatcher 5 20) 16 4 3 3
      [[⟨0, 0, 10, 10⟩]]).t_reg_mask 0 0 0 = true ∧
    ¬(Box.mk
        ((((0 : ℚ) + 1/2) * 4) + ((build_targets (lffdMatcher 5 20) 16 4 3 3
          [[⟨0, 0, 10, 10⟩]]).t_regs 0 0 0).x0 * (16 * (1/2)))
        ((((0 : ℚ) + 1/2) * 4) + ((build_targets (lffdMatcher 5 20) 16 4 3 3
          [[⟨0, 0, 10, 10⟩]]).t_regs 0 0 0).x1 * (16 * (1/2)))
        ((((0 : ℚ) + 1/2) * 4) + ((build_targets (lffdMatcher 5 20) 16 4 3 3
          [[⟨0, 0, 10, 10⟩]]).t_regs 0 0 0).x2 * (16 * (1/2)))
        ((((0 : ℚ) + 1/2) * 4) + ((build_targets (lffdMatcher 5 20) 16 4 3 3
          [[⟨0, 0, 10, 10⟩]]).t_regs 0 0 0).x3 * (16 * (1/2))) =
      Box.mk 0 0 10 10) := by
  constructor
  · simp only [build_targets_reg_mask_eq, lffdMatcher, lffdMatchCell, pickBest,
      coversCenter, eligibleBox, boxSize, boxW, boxH, boxArea, rfCenter,
      anchorCell, clampQ, List.enum, List.enumFrom, List.filter, List.any,
      List.getD, List.isEmpty, List.foldl]
    norm_num
  · simp only [build_targets_regs_eq, lffdMatcher, lffdMatchCell, pickBest,
      coversCenter, eligibleBox, boxSize, boxW, boxH, boxArea, rfCenter,
      anchorCell, clampQ, centerRepeated, normalizeRegs, boxVec, List.enum,
      List.enumFrom, List.filter, List.any, List.getD, List.isEmpty, List.foldl,
      Box.mk.injEq]
    norm_num

/-- C4 amended: for every matched cell, reconstructing with the center
actually used by the code — the midpoint of the `clip=True` anchor, i.e.
`centerRepeated` — recovers the matched ground-truth box exactly:
`center + regs * rf_size * 0.5 = box`. -/
theorem build_targets_reg_roundtrip_clipped (lower upper rf_size rf_stride : ℚ)
    (fh fw : ℕ) (gt_boxes : List (List Box)) (i row col : ℕ)
    (hrz : rf_size ≠ 0)
    (hmask : (build_targets (lffdMatcher lower upper) rf_size rf_stride fh fw
      gt_boxes).t_reg_mask i row col = true) :
    ∃ k, k < (gt_boxes.getD i []).length ∧
      Box.mk
        ((centerRepeated rf_size rf_stride fh fw row col).x0 +
          ((build_targets (lffdMatcher lower upper) rf_size rf_stride fh fw
            gt_boxes).t_regs i row col).x0 * (rf_size * (1/2)))
        ((centerRepeated rf_size rf_stride fh fw row col).x1 +
          ((build_targets (lffdMatcher lower upper) rf_size rf_stride fh fw
            gt_boxes).t_regs i row col).x1 * (rf_size * (1/2)))
        ((centerRepeated rf_size rf_stride fh fw row col).x2 +
          ((build_targets (lffdMatcher lower upper) rf_size rf_stride fh fw
            gt_boxes).t_regs i row col).x2 * (rf_size * (1/2)))
        ((centerRepeated rf_size rf_stride fh fw row col).x3 +
          ((build_targets (lffdMatcher lower upper) rf_size rf_stride fh fw
            gt_boxes).t_regs i row col).x3 * (rf_size * (1/2))) =
        (gt_boxes.getD i []).getD k ⟨0, 0, 0, 0⟩ := by
  have hyne : rf_size * (1/2) ≠ 0 := mul_ne_zero hrz (by norm_num)
  have hM2 : (lffdMatcher lower upper
      (fun r c => rfCenter rf_size rf_stride fh fw r c) (gt_boxes.getD i [])).2
        row col =
      (lffdMatchCell lower upper (gt_boxes.getD i [])
        (rfCenter rf_size rf_stride fh fw row col)).2 := rfl
  rw [build_targets_reg_mask_eq] at hmask
  by_cases hempB : (gt_boxes.getD i []).isEmpty = true
  · rw [if_pos hempB] at hmask
    exact absurd hmask (by simp)
  · rw [if_neg hempB] at hmask
    have hreg : 0 ≤ (lffdMatcher lower upper
        (fun r c => rfCenter rf_size rf_stride fh fw r c)
        (gt_boxes.getD i [])).2 row col := of_decide_eq_true hmask
    rw [hM2] at hreg
    obtain ⟨b, hlen, hgetD, _, _, _, h21⟩ :=
      lffdMatchCell_nonneg_spec lower upper (gt_boxes.getD i [])
        (rfCenter rf_size rf_stride fh fw row col) (Or.inr hreg)
    refine ⟨((lffdMatchCell lower upper (gt_boxes.getD i [])
      (rfCenter rf_size rf_stride fh fw row col)).1).toNat, hlen, ?_⟩
    have hval : (build_targets (lffdMatcher lower upper) rf_size rf_stride fh fw
        gt_boxes).t_regs i row col =
        normalizeRegs (boxVec b) (centerRepeated rf_size rf_stride fh fw row col)
          rf_size := by
      rw [build_targets_regs_eq, if_neg hempB, if_pos (hM2 ▸ hreg), hM2, h21, hgetD]
    rw [hval, hgetD]
    cases b with
    | mk bx0 by0 bx1 by1 =>
      simp only [normalizeRegs, boxVec, Box.mk.injEq]
      refine ⟨?_, ?_, ?_, ?_⟩ <;>
        · rw [div_mul_cancel₀ _ hyne]
          ring

/-- C4 amended witness: instantiation at the 3×3 map with `rf_size = 16`,
`rf_stride = 4`, scale range `[5, 20]`, one box `(0,0,10,10)`, cell `(0,0)`. -/
theorem build_targets_reg_roundtrip_clipped_witness :
    ∃ k, k < ([[(⟨0, 0, 10, 10⟩ : Box)]].getD 0 []).length ∧
      Box.mk
        ((centerRepeated 16 4 3 3 0 0).x0 +
          ((build_targets (lffdMatcher 5 20) 16 4 3 3
            [[⟨0, 0, 10, 10⟩]]).t_regs 0 0 0).x0 * (16 * (1/2)))
        ((centerRepeated 16 4 3 3 0 0).x1 +
          ((build_targets (lffdMatcher 5 20) 16 4 3 3
            [[⟨0, 0, 10, 10⟩]]).t_regs 0 0 0).x1 * (16 * (1/2)))
        ((centerRepeated 16 4 3 3 0 0).x2 +
          ((build_targets (lffdMatcher 5 20) 16 4 3 3
            [[⟨0, 0, 10, 10⟩]]).t_regs 0 0 0).x2 * (16 * (1/2)))
        ((centerRepeated 16 4 3 3 0 0).x3 +
          ((build_targets (lffdMatcher 5 20) 16 4 3 3
            [[⟨0, 0, 10, 10⟩]]).t_regs 0 0 0).x3 * (16 * (1/2))) =
        ([[(⟨0, 0, 10, 10⟩ : Box)]].getD 0 []).getD k ⟨0, 0, 0, 0⟩ := by
  refine build_targets_reg_roundtrip_clipped 5 20 16 4 3 3 [[⟨0, 0, 10, 10⟩]]
    0 0 0 (by norm_num) ?_
  simp only [build_targets_reg_mask_eq, lffdMatcher, lffdMatchCell, pickBest,
    coversCenter, eligibleBox, boxSize, boxW, boxH, boxArea, rfCenter,
    anchorCell, clampQ, List.enum, List.enumFrom, List.filter, List.any,
    List.getD, List.isEmpty, List.foldl]
  norm_num

end LFFD
